import Mathlib

/-!
Verification of the pathfinding / click-to-move logic of
`src/examples/post-1/05-physics/map-game.js`.

The file shallowly embeds the repository's own code: the grid built in
`create`, the walkable-tile classification loop, `game.getTileID`,
`game.checkCollision`, `game.changeTile`, `game.moveCharacter` and
`game.handleClick`.  The third-party EasyStar pathfinder is not part of the
repository; its search is modelled from the specification (a 4-connected
search over walkable cells, returning `none` when no path exists), and the
finder state (`setGrid`, `setAcceptableTiles`, `setTileCost`,
`avoidAdditionalPoint`) is embedded as an explicit structure.

Machine numbers are modelled as `Int` (tile coordinates, which may be
negative in the JS code) and `Nat` (tile indices, sizes, durations).
JavaScript `null` dereferences are modelled by `Option`: a function that can
throw returns `none` in exactly the states where the JS code would throw.
-/

/-- A cell coordinate in tile space, `(column, row)`.  JS tile coordinates are
produced by `Math.floor` and may be negative, hence `Int`. -/
abbrev Cell := Int × Int

/-- Lookup in a row-major 2D list with `Int` coordinates; `none` when the
coordinate is negative or outside the lists, exactly the cases in which
Phaser's `getTileAt` returns `null` for an out-of-bounds coordinate. -/
def cellAt {α : Type} (g : List (List α)) (x y : Int) : Option α :=
  if 0 ≤ x ∧ 0 ≤ y then (g.get? y.toNat).bind fun row => row.get? x.toNat
  else none

/-- A tile as the embedded code observes it: its tileset index and whether
collision is enabled on it (`tile.properties.collides` /
`tile.setCollision`). -/
structure TileData where
  index : Nat
  collides : Bool
deriving DecidableEq, Repr

/-- A tile layer: a grid of optional tiles (`null` entries are cells where the
layer has no tile). -/
abbrev Layer := List (List (Option TileData))

/-- Phaser's `map.getTileAt(x, y, false, layer)`: `null` both for a missing
tile and for an out-of-bounds coordinate. -/
def getTileAt (layer : Layer) (x y : Int) : Option TileData :=
  (cellAt layer x y).join

/-- The tilemap state the embedded functions consult: dimensions, tile pixel
sizes and the two layers `getTileID` reads ("World", falling back to
"Below Player"). -/
structure GameMap where
  width : Nat
  height : Nat
  tileWidth : Nat
  tileHeight : Nat
  worldLayer : Layer
  belowLayer : Layer
deriving DecidableEq, Repr

/-- The layers of a well-formed Tiled map are rectangular with the map's
dimensions. -/
def GameMap.WF (m : GameMap) : Prop :=
  m.worldLayer.length = m.height ∧ (∀ row ∈ m.worldLayer, row.length = m.width) ∧
  m.belowLayer.length = m.height ∧ (∀ row ∈ m.belowLayer, row.length = m.width)

instance (m : GameMap) : Decidable m.WF :=
  decidable_of_iff (m.worldLayer.length = m.height ∧
    (∀ row ∈ m.worldLayer, row.length = m.width) ∧
    m.belowLayer.length = m.height ∧ (∀ row ∈ m.belowLayer, row.length = m.width)) Iff.rfl

/-- `game.getTileID(x, y)` (src lines 274-281): the index of the "World" tile
when present, else of the "Below Player" tile; when neither layer has a tile
the JS code dereferences `null` (`tile.index` on `null`), modelled as
`none`. -/
def getTileID (m : GameMap) (x y : Int) : Option Nat :=
  match getTileAt m.worldLayer x y with
  | some tile => some tile.index
  | none =>
    match getTileAt m.belowLayer x y with
    | some tile => some tile.index
    | none => none

/-- Sequence a list of optional values: `some` of the list of values when all
are present, `none` as soon as one is missing (the loop aborts on the first
thrown lookup). -/
def seqOption {α : Type} : List (Option α) → Option (List α)
  | [] => some []
  | none :: _ => none
  | some a :: rest => (seqOption rest).map fun l => a :: l

/-- The grid-building loop of `create` (src lines 175-184): for each row `y`
and column `x` in the map's bounds, store `getTileID(x, y)`.  The whole build
succeeds only if no `getTileID` call throws. -/
def buildGrid (m : GameMap) : Option (List (List Nat)) :=
  seqOption ((List.range m.height).map fun y =>
    seqOption ((List.range m.width).map fun x => getTileID m (Int.ofNat x) (Int.ofNat y)))

/-- `game.checkCollision(x, y)` (src lines 267-272): `false` when the "World"
layer has no tile there (also out of bounds), otherwise
`tile.properties.collides == true`. -/
def checkCollision (m : GameMap) (x y : Int) : Bool :=
  match getTileAt m.worldLayer x y with
  | none => false
  | some tile => tile.collides

/-- The per-tile metadata declared in Tiled (`tileset.tileProperties[i]`):
an optional `collides` flag and an optional `cost`.  A JS `cost` of `0` is
falsy, so it is kept distinct from an absent cost. -/
structure TileProps where
  collides : Bool
  cost : Option Nat
deriving DecidableEq, Repr

/-- The tileset fields the classification loop reads: `firstgid` and
`total`. -/
structure Tileset where
  firstgid : Nat
  total : Nat
deriving DecidableEq, Repr

/-- The list of tile IDs the classification loop iterates over:
`for (i = firstgid - 1; i < total; i++)` (src line 195). -/
def tileIdRange (ts : Tileset) : List Nat :=
  List.range' (ts.firstgid - 1) (ts.total - (ts.firstgid - 1))

/-- The accept-list built by the loop at src lines 195-203: a gid `i + 1` is
pushed when tile ID `i` has no properties entry at all, or its entry's
`collides` is falsy. -/
def acceptableTilesOf (ts : Tileset) (props : Nat → Option TileProps) : List Nat :=
  (tileIdRange ts).filterMap fun i =>
    match props i with
    | none => some (i + 1)
    | some p => if p.collides then none else some (i + 1)

/-- The `setTileCost` calls issued by the same loop: `(i + 1, cost)` whenever
`properties[i].cost` is truthy (declared and nonzero). -/
def tileCostsOf (ts : Tileset) (props : Nat → Option TileProps) : List (Nat × Nat) :=
  (tileIdRange ts).filterMap fun i =>
    match props i with
    | none => none
    | some p =>
      match p.cost with
      | none => none
      | some c => if c = 0 then none else some (i + 1, c)

/-- One entry of the tween list built by `game.moveCharacter`
(src lines 322-326): target values `path[i+1].x * tileWidth`,
`path[i+1].y * tileHeight`, each with duration 200. -/
structure Tween where
  xValue : Int
  xDuration : Nat
  yValue : Int
  yDuration : Nat
deriving DecidableEq, Repr

/-- The tween `moveCharacter` builds for the path cell `c`. -/
def tweenFor (m : GameMap) (c : Cell) : Tween :=
  ⟨c.1 * (m.tileWidth : Int), 200, c.2 * (m.tileHeight : Int), 200⟩

/-- `game.moveCharacter(path)` (src lines 315-331): for
`i = 0 .. path.length - 2`, one tween targeting `path[i+1]` scaled to world
coordinates, duration 200 per axis. -/
def moveCharacter (m : GameMap) (path : List Cell) : List Tween :=
  (List.range (path.length - 1)).map fun i =>
    tweenFor m (path.getD (i + 1) (0, 0))

/-- The EasyStar pathfinder state as the embedded code configures it:
the tile-ID grid from `setGrid`, the accept-list from `setAcceptableTiles`,
the per-gid costs from `setTileCost` and the cells from
`avoidAdditionalPoint`. -/
structure Finder where
  grid : List (List Nat)
  acceptableTiles : List Nat
  tileCosts : List (Nat × Nat)
  pointsToAvoid : List Cell
deriving DecidableEq, Repr

/-- Grid height as the pathfinder sees it: the number of rows. -/
def Finder.height (f : Finder) : Nat := f.grid.length

/-- Grid width as the pathfinder sees it: the length of the first row. -/
def Finder.width (f : Finder) : Nat := (f.grid.headD []).length

/-- A finder whose grid is rectangular, as the grids built by `create`
always are. -/
def Finder.Rect (f : Finder) : Prop :=
  ∀ row ∈ f.grid, row.length = f.width

instance (f : Finder) : Decidable f.Rect :=
  decidable_of_iff (∀ row ∈ f.grid, row.length = f.width) Iff.rfl

/-- The tile ID stored at a cell of the pathfinder's grid. -/
def Finder.tileAt (f : Finder) (c : Cell) : Option Nat :=
  cellAt f.grid c.1 c.2

/-- A cell the pathfinder may step on: in bounds, its tile ID in the
accept-list, and not among the avoided points. -/
def Finder.walkable (f : Finder) (c : Cell) : Bool :=
  match f.tileAt c with
  | none => false
  | some t => t ∈ f.acceptableTiles && c ∉ f.pointsToAvoid

/-- The cost the pathfinder charges for a gid: the registered cost if any,
else the default cost 1. -/
def Finder.costOfGid (f : Finder) (gid : Nat) : Nat :=
  ((f.tileCosts.lookup gid).getD 1)

/-- 4-directional adjacency of cells. -/
def adjacent (a b : Cell) : Bool :=
  (a.1 - b.1).natAbs + (a.2 - b.2).natAbs = 1

/-- All in-bounds cells of the finder's grid, as a list. -/
def Finder.allCellsList (f : Finder) : List Cell :=
  (List.range f.height).flatMap fun y =>
    (List.range f.width).map fun x => (Int.ofNat x, Int.ofNat y)

/-- All in-bounds cells of the finder's grid. -/
def Finder.allCells (f : Finder) : Finset Cell :=
  (Finset.range f.width ×ˢ Finset.range f.height).image
    fun p => ((p.1 : Int), (p.2 : Int))

/-- One expansion step of the search's reachable set: add every in-bounds
walkable cell adjacent to a cell already reached. -/
def Finder.expand (f : Finder) (S : Finset Cell) : Finset Cell :=
  S ∪ f.allCells.filter fun c => f.walkable c = true ∧ ∃ d ∈ S, adjacent d c = true

/-- The cells reachable from `s` in at most `n` walkable 4-connected steps. -/
def Finder.reach (f : Finder) (s : Cell) : Nat → Finset Cell
  | 0 => {s}
  | n + 1 => f.expand (f.reach s n)

/-- Walk a path back out of the layered reachable sets: a cell of
`reach (n+1)` is either already in `reach n` or has a walkable-adjacent
predecessor there. -/
def Finder.extract (f : Finder) (s : Cell) : Nat → Cell → List Cell
  | 0, _ => [s]
  | n + 1, g =>
    if g ∈ f.reach s n then f.extract s n g
    else
      match f.allCellsList.find? (fun d => decide (d ∈ f.reach s n) && adjacent d g) with
      | some d => f.extract s n d ++ [g]
      | none => [g]

/-- Modelled from the spec: the third-party EasyStar `findPath`/`calculate`
pair is not part of the repository, so §4.2 is embedded directly — a search
over the 4-connected neighbour graph in which an edge into a cell exists only
if that cell is walkable, answering `none` (the JS `null` handed to the
callback) when start or goal is out of bounds or non-walkable or when no
walkable route connects them. -/
def Finder.findPath (f : Finder) (s g : Cell) : Option (List Cell) :=
  if f.walkable s && f.walkable g then
    if g ∈ f.reach s (f.width * f.height) then
      some (f.extract s (f.width * f.height) g)
    else none
  else none

/-- A walkable route of the search graph from `s` to `g`: nonempty, starts at
`s`, ends at `g`, consecutive cells 4-adjacent, every cell walkable. -/
def Finder.ValidRoute (f : Finder) (s g : Cell) (p : List Cell) : Prop :=
  p.head? = some s ∧ p.getLast? = some g ∧
  List.Chain' (fun a b => adjacent a b = true) p ∧
  ∀ c ∈ p, f.walkable c = true

/-- Executable check that consecutive cells of a list are 4-adjacent. -/
def adjChainB : List Cell → Bool
  | [] => true
  | [_] => true
  | a :: b :: rest => adjacent a b && adjChainB (b :: rest)

instance (f : Finder) (s g : Cell) (p : List Cell) : Decidable (f.ValidRoute s g p) :=
  decidable_of_iff (p.head? = some s ∧ p.getLast? = some g ∧ adjChainB p = true ∧
      ∀ c ∈ p, f.walkable c = true) (by
    have hiff : ∀ q : List Cell,
        adjChainB q = true ↔ List.Chain' (fun a b => adjacent a b = true) q := by
      intro q
      induction q with
      | nil => simp [adjChainB]
      | cons a rest ih =>
        cases rest with
        | nil => simp [adjChainB]
        | cons b rest' =>
          rw [List.chain'_cons, ← ih]
          simp [adjChainB]
    unfold Finder.ValidRoute
    rw [hiff])

/-- The mutable game state the click handlers read and write: the map (with
its mutable "World" layer), the pathfinder, the marker's world position and
the player's and camera's world positions. -/
structure GameState where
  map : GameMap
  finder : Finder
  markerX : Int
  markerY : Int
  playerX : Int
  playerY : Int
  scrollX : Int
  scrollY : Int
deriving DecidableEq, Repr

/-- Phaser's `worldToTileX`: world coordinate to tile column by floored
division by the tile width. -/
def worldToTile (tileSize : Nat) (v : Int) : Int :=
  Int.fdiv v (tileSize : Int)

/-- Overwrite one cell of a layer with a tile (Phaser's `putTileAt` target of
`putTileAtWorldXY`); out-of-range indices leave the layer unchanged, but
`changeTile` below only uses it on in-bounds cells. -/
def putTile (L : Layer) (x y : Nat) (t : TileData) : Layer :=
  match L.get? y with
  | none => L
  | some row => L.set y (row.set x (some t))

/-- Whether `putTileAtWorldXY` finds a real cell at the coordinate, i.e.
returns a `Tile` rather than `null`. -/
def Layer.hasCell (L : Layer) (x y : Int) : Prop :=
  0 ≤ x ∧ 0 ≤ y ∧ ∃ row, L.get? y.toNat = some row ∧ x.toNat < row.length

instance (L : Layer) (x y : Int) : Decidable (L.hasCell x y) :=
  decidable_of_iff (0 ≤ x ∧ 0 ≤ y ∧ x.toNat < ((L.get? y.toNat).getD []).length) (by
    constructor
    · rintro ⟨h1, h2, h3⟩
      cases hr : L.get? y.toNat with
      | none => rw [hr] at h3; simp at h3
      | some row =>
        rw [hr] at h3
        exact ⟨h1, h2, row, hr, h3⟩
    · rintro ⟨h1, h2, row, hr, h3⟩
      rw [hr]
      exact ⟨h1, h2, h3⟩)

/-- EasyStar's `avoidAdditionalPoint` keys avoided points by coordinate, so
registering a point twice is the same as registering it once. -/
def addAvoidPoint (c : Cell) (ps : List Cell) : List Cell :=
  if c ∈ ps then ps else c :: ps

/-- The state `changeTile` produces when the marker's cell exists: tile index
2 with collision enabled at the marker's cell of the "World" layer, and the
cell registered as a point for the pathfinder to avoid. -/
def changeTileResult (st : GameState) : GameState :=
  { st with
    map := { st.map with
      worldLayer := putTile st.map.worldLayer
        (worldToTile st.map.tileWidth st.markerX).toNat
        (worldToTile st.map.tileHeight st.markerY).toNat ⟨2, true⟩ }
    finder := { st.finder with
      pointsToAvoid := addAvoidPoint
        (worldToTile st.map.tileWidth st.markerX, worldToTile st.map.tileHeight st.markerY)
        st.finder.pointsToAvoid } }

/-- `game.changeTile()` (src lines 306-313): put tile index 2 at the marker's
cell of the "World" layer, enable collision on it, and register the cell as a
point for the pathfinder to avoid.  When the marker is outside the layer,
`putTileAtWorldXY` returns `null` and `tile.setCollision(true)` throws a
`TypeError`; that state is modelled as `none`. -/
def changeTile (st : GameState) : Option GameState :=
  if st.map.worldLayer.hasCell (worldToTile st.map.tileWidth st.markerX)
      (worldToTile st.map.tileHeight st.markerY) then
    some (changeTileResult st)
  else none

/-- What the path-request callback in `handleClick` (src lines 293-300) does:
warn when the path is `null`, otherwise hand the path to `moveCharacter`. -/
inductive ClickOutcome where
  | warned
  | moved (path : List Cell) (tweens : List Tween)
deriving DecidableEq, Repr

/-- The start cell of the path request issued by `handleClick`:
`Math.floor(player.x / 32)`, `Math.floor(player.y / 32)` (src lines
289-290). -/
def fromCell (st : GameState) : Cell :=
  (Int.fdiv st.playerX 32, Int.fdiv st.playerY 32)

/-- The goal cell of the path request issued by `handleClick`:
`Math.floor((camera.scrollX + pointer.x) / 32)` and likewise for `y`
(src lines 285-288). -/
def toCell (st : GameState) (px py : Int) : Cell :=
  (Int.fdiv (st.scrollX + px) 32, Int.fdiv (st.scrollY + py) 32)

/-- The outcome delivered to the callback of the path request issued by
`handleClick`: the callback runs during `finder.calculate()`, before
`changeTile`, so it sees the pre-click finder state. -/
def handleClickOutcome (st : GameState) (px py : Int) : ClickOutcome :=
  match st.finder.findPath (fromCell st) (toCell st px py) with
  | none => .warned
  | some path => .moved path (moveCharacter st.map path)

/-- `game.handleClick(pointer)` (src lines 283-304): issue the path request,
run the callback, then unconditionally call `changeTile`; `none` when
`changeTile` throws. -/
def handleClick (st : GameState) (px py : Int) : Option (ClickOutcome × GameState) :=
  (changeTile st).map fun st' => (handleClickOutcome st px py, st')

/-! ### Concrete data for witnesses -/

/-- A walkable world tile (index 0, no collision). -/
def tWalk : TileData := ⟨0, false⟩

/-- A colliding world tile (index 1, collision enabled). -/
def tWall : TileData := ⟨1, true⟩

/-- A 3×3 "World" layer: a wall in the middle, a hole (no tile) at (2,2). -/
def witWorld : Layer :=
  [[some tWalk, some tWalk, some tWalk],
   [some tWalk, some tWall, some tWalk],
   [some tWalk, some tWalk, none]]

/-- A full 3×3 "Below Player" layer of walkable tiles. -/
def witBelow : Layer :=
  [[some tWalk, some tWalk, some tWalk],
   [some tWalk, some tWalk, some tWalk],
   [some tWalk, some tWalk, some tWalk]]

/-- A concrete 3×3 map with 32-pixel tiles. -/
def witMap : GameMap := ⟨3, 3, 32, 32, witWorld, witBelow⟩

/-- The tile-ID grid `create` builds from `witMap` ((2,2) falls back to the
below layer). -/
def witGrid : List (List Nat) := [[0, 0, 0], [0, 1, 0], [0, 0, 0]]

/-- A finder configured like `create` does on `witMap`: grid of tile IDs,
only tile ID 0 acceptable. -/
def witFinder : Finder := ⟨witGrid, [0], [], []⟩

/-- A 2×2 finder whose two walkable cells (0,0) and (1,1) are not connected
by any walkable route. -/
def witFinderBlocked : Finder := ⟨[[0, 1], [1, 0]], [0], [], []⟩

/-- A concrete game state: marker on tile cell (1,1), player at the origin,
camera unscrolled. -/
def witState : GameState := ⟨witMap, witFinder, 32, 32, 0, 0, 0, 0⟩

/-- The same state with the marker at world (-32,-32), i.e. on the
out-of-bounds tile cell (-1,-1). -/
def witStateOOB : GameState := { witState with markerX := -32, markerY := -32 }

/-- A game state over the disconnected 2×2 finder. -/
def witStateBlocked : GameState := ⟨witMap, witFinderBlocked, 0, 0, 0, 0, 0, 0⟩

/-- A one-tile tileset: tile IDs {0}, gids {1}. -/
def witTileset : Tileset := ⟨1, 1⟩

/-- A property table declaring `collides: false, cost: 0` on tile ID 0. -/
def zeroCostProps : Nat → Option TileProps :=
  fun i => if i = 0 then some ⟨false, some 0⟩ else none

/-- A three-tile tileset: tile IDs {0,1,2}, gids {1,2,3}. -/
def witTileset3 : Tileset := ⟨1, 3⟩

/-- A property table: tile 1 collides, tile 2 costs 3, tile 0 undeclared. -/
def witProps : Nat → Option TileProps :=
  fun i =>
    if i = 1 then some ⟨true, none⟩
    else if i = 2 then some ⟨false, some 3⟩
    else none

/-! ### Helper lemmas -/

theorem seqOption_eq_some {α : Type} {l : List (Option α)} {l' : List α} :
    seqOption l = some l' ↔ l = l'.map some := by
  induction l generalizing l' with
  | nil => cases l' <;> simp [seqOption]
  | cons o rest ih =>
    cases o with
    | none => cases l' <;> simp [seqOption]
    | some a =>
      cases l' with
      | nil => simp [seqOption]
      | cons b l'' =>
        simp only [seqOption, Option.map_eq_some', ih, List.map_cons, List.cons.injEq,
          Option.some.injEq]
        constructor
        · rintro ⟨l, hl, rfl, rfl⟩
          exact ⟨rfl, hl⟩
        · rintro ⟨rfl, h⟩
          exact ⟨l'', h, rfl, rfl⟩

theorem seqOption_isSome {α : Type} {l : List (Option α)} :
    (seqOption l).isSome = true ↔ ∀ o ∈ l, o.isSome = true := by
  induction l with
  | nil => simp [seqOption]
  | cons o rest ih =>
    cases o with
    | none => simp [seqOption]
    | some a => simp [seqOption, ih]

theorem mem_allCells {f : Finder} {c : Cell} :
    c ∈ f.allCells ↔ 0 ≤ c.1 ∧ c.1 < (f.width : Int) ∧ 0 ≤ c.2 ∧ c.2 < (f.height : Int) := by
  simp only [Finder.allCells, Finset.mem_image, Finset.mem_product, Finset.mem_range, Prod.exists]
  constructor
  · rintro ⟨a, b, ⟨ha, hb⟩, rfl⟩
    refine ⟨Int.natCast_nonneg a, ?_, Int.natCast_nonneg b, ?_⟩
    · show (a : Int) < (f.width : Int)
      exact_mod_cast ha
    · show (b : Int) < (f.height : Int)
      exact_mod_cast hb
  · rintro ⟨h1, h2, h3, h4⟩
    refine ⟨c.1.toNat, c.2.toNat, ⟨by omega, by omega⟩, ?_⟩
    have e1 : (c.1.toNat : Int) = c.1 := Int.toNat_of_nonneg h1
    have e2 : (c.2.toNat : Int) = c.2 := Int.toNat_of_nonneg h3
    simp [e1, e2]

theorem card_allCells_le (f : Finder) : f.allCells.card ≤ f.width * f.height := by
  calc f.allCells.card ≤ (Finset.range f.width ×ˢ Finset.range f.height).card :=
        Finset.card_image_le
    _ = f.width * f.height := by simp [Finset.card_product]

theorem walkable_mem_allCells {f : Finder} (hr : f.Rect) {c : Cell}
    (hw : f.walkable c = true) : c ∈ f.allCells := by
  unfold Finder.walkable at hw
  cases ht : f.tileAt c with
  | none => rw [ht] at hw; simp at hw
  | some t =>
    unfold Finder.tileAt cellAt at ht
    by_cases hb : 0 ≤ c.1 ∧ 0 ≤ c.2
    · rw [if_pos hb] at ht
      rcases Option.bind_eq_some.mp ht with ⟨row, hrow, hcell⟩
      have hy : c.2.toNat < f.grid.length := by
        by_contra hge
        rw [List.get?_eq_none.mpr (by omega)] at hrow
        cases hrow
      have hxr : c.1.toNat < row.length := by
        by_contra hge
        rw [List.get?_eq_none.mpr (by omega)] at hcell
        cases hcell
      have hx : c.1.toNat < f.width := by
        rwa [hr row (List.get?_mem hrow)] at hxr
      have hy' : c.2.toNat < f.height := hy
      exact mem_allCells.mpr ⟨hb.1, by omega, hb.2, by omega⟩
    · rw [if_neg hb] at ht; cases ht

theorem mem_allCellsList_of_mem {f : Finder} {c : Cell} (h : c ∈ f.allCells) :
    c ∈ f.allCellsList := by
  rcases mem_allCells.mp h with ⟨h1, h2, h3, h4⟩
  unfold Finder.allCellsList
  rw [List.mem_flatMap]
  refine ⟨c.2.toNat, by rw [List.mem_range]; omega, ?_⟩
  rw [List.mem_map]
  refine ⟨c.1.toNat, by rw [List.mem_range]; omega, ?_⟩
  have e1 : (Int.ofNat c.1.toNat) = c.1 := Int.toNat_of_nonneg h1
  have e2 : (Int.ofNat c.2.toNat) = c.2 := Int.toNat_of_nonneg h3
  rw [e1, e2]

theorem mem_reach_walkable {f : Finder} {s : Cell} (hs : f.walkable s = true) :
    ∀ {n : Nat} {c : Cell}, c ∈ f.reach s n → f.walkable c = true := by
  intro n
  induction n with
  | zero =>
    intro c hc
    rw [Finder.reach, Finset.mem_singleton] at hc
    subst hc; exact hs
  | succ n ih =>
    intro c hc
    rw [Finder.reach, Finder.expand] at hc
    rcases Finset.mem_union.mp hc with h | h
    · exact ih h
    · exact (Finset.mem_filter.mp h).2.1

theorem reach_succ_subset (f : Finder) (s : Cell) (n : Nat) :
    f.reach s n ⊆ f.reach s (n + 1) := by
  rw [Finder.reach, Finder.expand]
  exact Finset.subset_union_left

theorem reach_mono {f : Finder} {s : Cell} {m n : Nat} (h : m ≤ n) :
    f.reach s m ⊆ f.reach s n := by
  induction h with
  | refl => exact subset_rfl
  | step _ ih => exact ih.trans (reach_succ_subset _ _ _)

theorem reach_subset_allCells {f : Finder} {s : Cell} (hr : f.Rect)
    (hs : f.walkable s = true) (n : Nat) : f.reach s n ⊆ f.allCells := by
  induction n with
  | zero =>
    intro c hc
    rw [Finder.reach, Finset.mem_singleton] at hc
    subst hc; exact walkable_mem_allCells hr hs
  | succ n ih =>
    intro c hc
    rw [Finder.reach, Finder.expand] at hc
    rcases Finset.mem_union.mp hc with h | h
    · exact ih h
    · exact (Finset.mem_filter.mp h).1

theorem reach_stable {f : Finder} {s : Cell} {k : Nat}
    (h : f.reach s (k + 1) = f.reach s k) : ∀ j, f.reach s (k + j) = f.reach s k
  | 0 => rfl
  | j + 1 => by
    calc f.reach s (k + (j + 1)) = f.expand (f.reach s (k + j)) := rfl
      _ = f.expand (f.reach s k) := by rw [reach_stable h j]
      _ = f.reach s (k + 1) := rfl
      _ = f.reach s k := h

theorem exists_stable_reach {f : Finder} {s : Cell} (hr : f.Rect)
    (hs : f.walkable s = true) :
    ∃ k ≤ f.width * f.height, f.reach s (k + 1) = f.reach s k := by
  by_contra hcon
  push_neg at hcon
  have grow : ∀ k ≤ f.width * f.height + 1, k + 1 ≤ (f.reach s k).card := by
    intro k
    induction k with
    | zero => intro _; simp [Finder.reach]
    | succ k ih =>
      intro hk
      have h1 : k + 1 ≤ (f.reach s k).card := ih (by omega)
      have hss : f.reach s k ⊂ f.reach s (k + 1) :=
        Finset.ssubset_iff_subset_ne.mpr
          ⟨reach_succ_subset f s k, fun he => hcon k (by omega) he.symm⟩
      have h2 := Finset.card_lt_card hss
      omega
  have h2 := grow (f.width * f.height + 1) le_rfl
  have h3 : (f.reach s (f.width * f.height + 1)).card ≤ f.width * f.height :=
    le_trans (Finset.card_le_card (reach_subset_allCells hr hs _)) (card_allCells_le f)
  omega

theorem reach_subset_reach_bound {f : Finder} {s : Cell} (hr : f.Rect)
    (hs : f.walkable s = true) (L : Nat) :
    f.reach s L ⊆ f.reach s (f.width * f.height) := by
  rcases le_or_lt L (f.width * f.height) with h | h
  · exact reach_mono h
  · rcases exists_stable_reach hr hs with ⟨k, hk, hfix⟩
    have e : L = k + (L - k) := by omega
    have hL : f.reach s L = f.reach s k := by
      rw [e]; exact reach_stable hfix _
    rw [hL]
    exact reach_mono hk

theorem mem_expand_of_adjacent {f : Finder} (hr : f.Rect) {S : Finset Cell} {c d : Cell}
    (hc : c ∈ S) (had : adjacent c d = true) (hw : f.walkable d = true) :
    d ∈ f.expand S :=
  Finset.mem_union_right _
    (Finset.mem_filter.mpr ⟨walkable_mem_allCells hr hw, hw, c, hc, had⟩)

theorem chain_mem_reach {f : Finder} (hr : f.Rect) {s : Cell} :
    ∀ (p : List Cell) (c : Cell) (n : Nat), c ∈ f.reach s n →
      List.Chain' (fun a b => adjacent a b = true) (c :: p) →
      (∀ x ∈ p, f.walkable x = true) →
      ∀ g, (c :: p).getLast? = some g → g ∈ f.reach s (n + p.length)
  | [], c, n, hc, _, _, g, hg => by
    simp only [List.getLast?_singleton, Option.some.injEq] at hg
    subst hg
    simpa using hc
  | d :: p', c, n, hc, hch, hw, g, hg => by
    have had : adjacent c d = true := (List.chain'_cons.mp hch).1
    have hch' : List.Chain' (fun a b => adjacent a b = true) (d :: p') :=
      (List.chain'_cons.mp hch).2
    have hd : f.walkable d = true := hw d (by simp)
    have hdr : d ∈ f.reach s (n + 1) := mem_expand_of_adjacent hr hc had hd
    have hg' : (d :: p').getLast? = some g := by
      rwa [List.getLast?_cons_cons] at hg
    have ih := chain_mem_reach hr p' d (n + 1) hdr hch'
      (fun x hx => hw x (by simp [hx])) g hg'
    have e : n + (d :: p').length = (n + 1) + p'.length := by
      simp [List.length_cons]; omega
    rwa [e]

theorem route_mem_reach {f : Finder} (hr : f.Rect) {s g : Cell} {p : List Cell}
    (hp : f.ValidRoute s g p) : g ∈ f.reach s (p.length - 1) := by
  obtain ⟨hhead, hlast, hch, hw⟩ := hp
  cases p with
  | nil => simp at hhead
  | cons c rest =>
    have hc : c = s := by simpa using hhead
    subst hc
    have h0 : c ∈ f.reach c 0 := by simp [Finder.reach]
    have := chain_mem_reach hr rest c 0 h0 hch
      (fun x hx => hw x (by simp [hx])) g hlast
    simpa using this

theorem extract_valid {f : Finder} (hr : f.Rect) {s : Cell} (hs : f.walkable s = true) :
    ∀ (n : Nat) (g : Cell), g ∈ f.reach s n → f.ValidRoute s g (f.extract s n g)
  | 0, g, hg => by
    rw [Finder.reach, Finset.mem_singleton] at hg
    subst hg
    exact ⟨rfl, by simp [Finder.extract], by simp [Finder.extract], by simp [Finder.extract, hs]⟩
  | n + 1, g, hg => by
    by_cases hmem : g ∈ f.reach s n
    · rw [Finder.extract, if_pos hmem]
      exact extract_valid hr hs n g hmem
    · rw [Finder.reach, Finder.expand] at hg
      rcases Finset.mem_union.mp hg with h | h
      · exact absurd h hmem
      · obtain ⟨hall, hw, d0, hd0, hadj0⟩ := Finset.mem_filter.mp h
        have hfind : (f.allCellsList.find? fun d =>
            decide (d ∈ f.reach s n) && adjacent d g).isSome = true := by
          cases hf : f.allCellsList.find? fun d =>
              decide (d ∈ f.reach s n) && adjacent d g with
          | none =>
            have hd0' : d0 ∈ f.allCellsList :=
              mem_allCellsList_of_mem (reach_subset_allCells hr hs n hd0)
            have := List.find?_eq_none.mp hf d0 hd0'
            simp [hd0, hadj0] at this
          | some d => rfl
        obtain ⟨d, hd⟩ := Option.isSome_iff_exists.mp hfind
        rw [Finder.extract, if_neg hmem, hd]
        have hdp := List.find?_some hd
        simp only [Bool.and_eq_true, decide_eq_true_eq] at hdp
        obtain ⟨hdmem, hadj⟩ := hdp
        obtain ⟨hh, hl, hc, hwalk⟩ := extract_valid hr hs n d hdmem
        have hne : f.extract s n d ≠ [] := by
          intro he; rw [he] at hh; cases hh
        refine ⟨?_, ?_, ?_, ?_⟩
        · rw [List.head?_append_of_ne_nil _ hne]
          exact hh
        · exact List.getLast?_concat _
        · rw [List.chain'_append]
          refine ⟨hc, List.chain'_singleton _, ?_⟩
          intro x hx y hy
          rw [hl] at hx
          simp only [Option.mem_def, Option.some.injEq] at hx
          simp only [List.head?_cons, Option.mem_def, Option.some.injEq] at hy
          subst hx; subst hy
          exact hadj
        · intro c hc'
          rcases List.mem_append.mp hc' with hcl | hcr
          · exact hwalk c hcl
          · simp only [List.mem_singleton] at hcr
            subst hcr
            exact hw

theorem findPath_some_valid {f : Finder} (hr : f.Rect) {s g : Cell} {p : List Cell}
    (h : f.findPath s g = some p) : f.ValidRoute s g p := by
  unfold Finder.findPath at h
  by_cases hw : (f.walkable s && f.walkable g) = true
  · rw [if_pos hw] at h
    by_cases hg : g ∈ f.reach s (f.width * f.height)
    · rw [if_pos hg] at h
      injection h with h
      subst h
      exact extract_valid hr (by simp only [Bool.and_eq_true] at hw; exact hw.1) _ g hg
    · rw [if_neg hg] at h; cases h
  · rw [if_neg hw] at h; cases h

theorem findPath_complete {f : Finder} (hr : f.Rect) {s g : Cell}
    (hs : f.walkable s = true) (hg : f.walkable g = true)
    (hroute : ∃ p, f.ValidRoute s g p) :
    ∃ p, f.findPath s g = some p ∧ f.ValidRoute s g p := by
  obtain ⟨q, hq⟩ := hroute
  have hreach : g ∈ f.reach s (f.width * f.height) :=
    reach_subset_reach_bound hr hs _ (route_mem_reach hr hq)
  refine ⟨f.extract s (f.width * f.height) g, ?_, extract_valid hr hs _ g hreach⟩
  unfold Finder.findPath
  rw [if_pos (by simp [hs, hg]), if_pos hreach]

theorem findPath_none_of_no_route {f : Finder} (hr : f.Rect) {s g : Cell}
    (h : ¬ ∃ p, f.ValidRoute s g p) : f.findPath s g = none := by
  cases hp : f.findPath s g with
  | none => rfl
  | some p => exact absurd ⟨p, findPath_some_valid hr hp⟩ h

theorem findPath_none_of_unwalkable {f : Finder} {s g : Cell}
    (h : f.walkable s = false ∨ f.walkable g = false) : f.findPath s g = none := by
  unfold Finder.findPath
  rcases h with h | h <;> simp [h]

theorem getTileAt_oob {L : Layer} {w : Nat} (hlen : ∀ row ∈ L, row.length = w)
    {x y : Int} (h : x < 0 ∨ y < 0 ∨ (w : Int) ≤ x ∨ (L.length : Int) ≤ y) :
    getTileAt L x y = none := by
  unfold getTileAt cellAt
  by_cases hb : 0 ≤ x ∧ 0 ≤ y
  · rw [if_pos hb]
    have h' : (w : Int) ≤ x ∨ (L.length : Int) ≤ y := by omega
    rcases h' with h' | h'
    · cases hrow : L.get? y.toNat with
      | none => rfl
      | some row =>
        have hx : row.length ≤ x.toNat := by
          rw [hlen row (List.get?_mem hrow)]; omega
        rw [Option.some_bind, List.get?_eq_none.mpr hx]
        rfl
    · rw [List.get?_eq_none.mpr (by omega)]
      rfl
  · rw [if_neg hb]; rfl

theorem hasCell_bounds {L : Layer} {x y : Int} (h : L.hasCell x y) :
    0 ≤ x ∧ 0 ≤ y ∧ ∃ row, L.get? y.toNat = some row ∧ x.toNat < row.length := h

theorem putTile_eq_of_get? {L : Layer} {y : Nat} {row : List (Option TileData)}
    (hrow : L.get? y = some row) (x : Nat) (t : TileData) :
    putTile L x y t = L.set y (row.set x (some t)) := by
  unfold putTile
  rw [hrow]

theorem get?_set_self {L : Layer} {y : Nat} {row row' : List (Option TileData)}
    (hrow : L.get? y = some row) : (L.set y row').get? y = some row' := by
  rw [List.get?_set, if_pos rfl, hrow]
  rfl

theorem getTileAt_putTile {L : Layer} {x y : Int} (h : L.hasCell x y) (t : TileData) :
    getTileAt (putTile L x.toNat y.toNat t) x y = some t := by
  obtain ⟨hx, hy, row, hrow, hxl⟩ := h
  have hcell : (row.set x.toNat (some t)).get? x.toNat = some (some t) := by
    rw [List.get?_set, if_pos rfl]
    cases hc : row.get? x.toNat with
    | none => rw [List.get?_eq_none] at hc; omega
    | some o => rfl
  rw [putTile_eq_of_get? hrow]
  unfold getTileAt cellAt
  rw [if_pos ⟨hx, hy⟩, get?_set_self hrow, Option.some_bind, hcell]
  rfl

theorem putTile_putTile (L : Layer) (x y : Nat) (t : TileData) :
    putTile (putTile L x y t) x y t = putTile L x y t := by
  cases hrow : L.get? y with
  | none =>
    have e : putTile L x y t = L := by unfold putTile; rw [hrow]
    rw [e]; rw [e]
  | some row =>
    rw [putTile_eq_of_get? hrow,
      putTile_eq_of_get? (@get?_set_self L y row (row.set x (some t)) hrow),
      List.set_set, List.set_set]

theorem putTile_length (L : Layer) (x y : Nat) (t : TileData) :
    (putTile L x y t).length = L.length := by
  unfold putTile
  cases hrow : L.get? y with
  | none => rfl
  | some row => exact List.length_set L y _

theorem hasCell_putTile {L : Layer} {x y : Int} (h : L.hasCell x y) (t : TileData) :
    (putTile L x.toNat y.toNat t).hasCell x y := by
  obtain ⟨hx, hy, row, hrow, hxl⟩ := h
  refine ⟨hx, hy, row.set x.toNat (some t), ?_, by simp [hxl]⟩
  rw [putTile_eq_of_get? hrow]
  exact get?_set_self hrow

theorem mem_addAvoidPoint_self (c : Cell) (ps : List Cell) : c ∈ addAvoidPoint c ps := by
  unfold addAvoidPoint
  split
  · assumption
  · exact List.mem_cons_self c ps

theorem mem_addAvoidPoint_iff {c d : Cell} {ps : List Cell} (h : d ≠ c) :
    d ∈ addAvoidPoint c ps ↔ d ∈ ps := by
  unfold addAvoidPoint
  by_cases hc : c ∈ ps
  · rw [if_pos hc]
  · rw [if_neg hc]
    simp [List.mem_cons, h]

theorem addAvoidPoint_addAvoidPoint (c : Cell) (ps : List Cell) :
    addAvoidPoint c (addAvoidPoint c ps) = addAvoidPoint c ps := by
  unfold addAvoidPoint
  by_cases hc : c ∈ ps
  · simp [hc]
  · simp [hc]

theorem walkable_addAvoidPoint_self (f : Finder) (c : Cell) (ps : List Cell)
    (h : f.pointsToAvoid = addAvoidPoint c ps) : f.walkable c = false := by
  unfold Finder.walkable
  cases ht : f.tileAt c with
  | none => rfl
  | some t =>
    have : c ∈ f.pointsToAvoid := h ▸ mem_addAvoidPoint_self c ps
    simp [this]

theorem walkable_addAvoidPoint_other {f f' : Finder} {cell c : Cell}
    (hgrid : f'.grid = f.grid) (hacc : f'.acceptableTiles = f.acceptableTiles)
    (hpts : f'.pointsToAvoid = addAvoidPoint cell f.pointsToAvoid) (hne : c ≠ cell) :
    f'.walkable c = f.walkable c := by
  unfold Finder.walkable Finder.tileAt
  rw [hgrid, hacc, hpts]
  by_cases hc : c ∈ f.pointsToAvoid
  · have hc' : c ∈ addAvoidPoint cell f.pointsToAvoid :=
      (mem_addAvoidPoint_iff hne).mpr hc
    cases cellAt f.grid c.1 c.2 <;> simp [hc, hc']
  · have hc' : c ∉ addAvoidPoint cell f.pointsToAvoid :=
      fun hmem => hc ((mem_addAvoidPoint_iff hne).mp hmem)
    cases cellAt f.grid c.1 c.2 <;> simp [hc, hc']

theorem changeTile_eq_of_hasCell (st : GameState)
    (h : st.map.worldLayer.hasCell (worldToTile st.map.tileWidth st.markerX)
      (worldToTile st.map.tileHeight st.markerY)) :
    changeTile st = some (changeTileResult st) := by
  unfold changeTile
  rw [if_pos h]

theorem changeTileResult_hasCell (st : GameState)
    (h : st.map.worldLayer.hasCell (worldToTile st.map.tileWidth st.markerX)
      (worldToTile st.map.tileHeight st.markerY)) :
    (changeTileResult st).map.worldLayer.hasCell
      (worldToTile (changeTileResult st).map.tileWidth (changeTileResult st).markerX)
      (worldToTile (changeTileResult st).map.tileHeight (changeTileResult st).markerY) := by
  dsimp only [changeTileResult]
  exact hasCell_putTile h _

theorem changeTileResult_idem (st : GameState) :
    changeTileResult (changeTileResult st) = changeTileResult st := by
  dsimp only [changeTileResult]
  rw [putTile_putTile, addAvoidPoint_addAvoidPoint]

theorem tileCostsOf_mem_inv {ts : Tileset} {props : Nat → Option TileProps} {g c : Nat}
    (h : (g, c) ∈ tileCostsOf ts props) :
    ∃ i p, g = i + 1 ∧ i ∈ tileIdRange ts ∧ props i = some p ∧
      p.cost = some c ∧ c ≠ 0 := by
  rcases List.mem_filterMap.mp h with ⟨j, hj, hfj⟩
  cases hpj : props j with
  | none => simp [hpj] at hfj
  | some q =>
    simp only [hpj] at hfj
    cases hqc : q.cost with
    | none => simp [hqc] at hfj
    | some c' =>
      simp only [hqc] at hfj
      by_cases hz : c' = 0
      · rw [if_pos hz] at hfj; cases hfj
      · rw [if_neg hz] at hfj
        simp only [Option.some.injEq, Prod.mk.injEq] at hfj
        obtain ⟨hg, hc⟩ := hfj
        subst hc
        exact ⟨j, q, hg.symm, hj, hpj, hqc, hz⟩

/-! ### Claims -/

/-- C1: for every rectangular grid and every walkable (hence in-bounds) start
and goal connected by a walkable route, the path search issued by
`handleClick` (`finder.findPath` followed by `finder.calculate`) delivers to
its callback a path whose first cell equals the start, whose last cell equals
the goal, and in which every pair of consecutive cells is 4-directionally
adjacent and walkable. -/
theorem C1_findPath_valid {f : Finder} (hr : f.Rect) {s g : Cell}
    (hs : f.walkable s = true) (hg : f.walkable g = true)
    (hconn : ∃ p, f.ValidRoute s g p) :
    ∃ p, f.findPath s g = some p ∧ p.head? = some s ∧ p.getLast? = some g ∧
      List.Chain' (fun a b => adjacent a b = true) p ∧
      ∀ c ∈ p, f.walkable c = true := by
  obtain ⟨p, hp, h1, h2, h3, h4⟩ := findPath_complete hr hs hg hconn
  exact ⟨p, hp, h1, h2, h3, h4⟩

/-- C1 witness: on the concrete 3×3 grid with a wall at (1,1), the search
from (0,0) to (2,2) yields a valid path. -/
theorem C1_witness :
    ∃ p, witFinder.findPath (0, 0) (2, 2) = some p ∧
      p.head? = some (0, 0) ∧ p.getLast? = some (2, 2) ∧
      List.Chain' (fun a b => adjacent a b = true) p ∧
      ∀ c ∈ p, witFinder.walkable c = true :=
  C1_findPath_valid (by decide) (by decide) (by decide)
    ⟨[(0, 0), (1, 0), (2, 0), (2, 1), (2, 2)], by decide⟩

/-- C2: for every path of N ≥ 1 cells, `moveCharacter` creates exactly N-1
tweens, in path order and excluding the start cell: the i-th tween targets
`(path[i+1].x * tileWidth, path[i+1].y * tileHeight)` with a fixed duration
of 200 per axis; a single-cell path produces no tweens. -/
theorem C2_moveCharacter_tweens (m : GameMap) (path : List Cell) :
    (moveCharacter m path).length = path.length - 1 ∧
    (∀ i : Nat, (moveCharacter m path).get? i = (path.get? (i + 1)).map (tweenFor m)) ∧
    (path.length = 1 → moveCharacter m path = []) := by
  refine ⟨by simp [moveCharacter], ?_, ?_⟩
  · intro i
    by_cases h : i < path.length - 1
    · unfold moveCharacter
      rw [List.get?_map, List.get?_range h]
      cases hv : path.get? (i + 1) with
      | none => rw [List.get?_eq_none] at hv; omega
      | some v =>
        rw [Option.map_some', Option.map_some']
        have he : path.getD (i + 1) (0, 0) = v := by
          rw [List.getD_eq_get?, hv]; rfl
        rw [he]
    · have h1 : (moveCharacter m path).length ≤ i := by
        simp only [moveCharacter, List.length_map, List.length_range]; omega
      have h2 : path.length ≤ i + 1 := by omega
      rw [List.get?_eq_none.mpr h1, List.get?_eq_none.mpr h2]
      rfl
  · intro h
    simp [moveCharacter, h]

/-- C2 witness: a 3-cell path yields 2 tweens with the expected target, and a
single-cell path yields none. -/
theorem C2_witness :
    (moveCharacter witMap [(1, 1), (2, 1), (2, 2)]).length = 2 ∧
    (moveCharacter witMap [(1, 1), (2, 1), (2, 2)]).get? 0 =
      some (tweenFor witMap (2, 1)) ∧
    moveCharacter witMap [(2, 2)] = [] :=
  ⟨(C2_moveCharacter_tweens witMap [(1, 1), (2, 1), (2, 2)]).1,
   by rw [(C2_moveCharacter_tweens witMap [(1, 1), (2, 1), (2, 2)]).2.1 0]; rfl,
   (C2_moveCharacter_tweens witMap [(2, 2)]).2.2 rfl⟩

/-- C3 counterexample: tile ID 0 declares a cost of 0; the claim says every
declared cost is registered, but `if (properties[i].cost)` is falsy for 0, so
no cost is registered for gid 1 and the default cost remains. -/
theorem C3_counterexample :
    zeroCostProps 0 = some ⟨false, some 0⟩ ∧ 0 ∈ tileIdRange witTileset ∧
    (1, 0) ∉ tileCostsOf witTileset zeroCostProps := by decide

/-- C3 (amended): for every tile ID i in the iterated range, gid i+1 is added
to the accept-list iff the property table has no entry for i or the entry's
`collides` is not true; a declared *nonzero* cost is registered for gid i+1
(a declared cost of 0 is falsy and skipped); a tile with no declared cost gets
no registration at its gid, keeping the default cost. -/
theorem C3_classification (ts : Tileset) (props : Nat → Option TileProps) (i : Nat)
    (hi : i ∈ tileIdRange ts) :
    ((i + 1) ∈ acceptableTilesOf ts props ↔
      props i = none ∨ ∃ p, props i = some p ∧ p.collides = false) ∧
    (∀ p c, props i = some p → p.cost = some c → c ≠ 0 →
      (i + 1, c) ∈ tileCostsOf ts props) ∧
    (∀ p, props i = some p → p.cost = none →
      ∀ c, (i + 1, c) ∉ tileCostsOf ts props) ∧
    (props i = none → ∀ c, (i + 1, c) ∉ tileCostsOf ts props) := by
  refine ⟨⟨?_, ?_⟩, ?_, ?_, ?_⟩
  · intro hmem
    rcases List.mem_filterMap.mp hmem with ⟨j, hj, hfj⟩
    cases hpj : props j with
    | none =>
      simp only [hpj, Option.some.injEq] at hfj
      have hji : j = i := by omega
      subst hji
      exact Or.inl hpj
    | some p =>
      simp only [hpj] at hfj
      by_cases hc : p.collides
      · rw [if_pos hc] at hfj; cases hfj
      · rw [if_neg hc] at hfj
        simp only [Option.some.injEq] at hfj
        have hji : j = i := by omega
        subst hji
        exact Or.inr ⟨p, hpj, by simpa using hc⟩
  · intro h
    apply List.mem_filterMap.mpr
    refine ⟨i, hi, ?_⟩
    rcases h with h | ⟨p, hp, hc⟩
    · simp [h]
    · simp [hp, hc]
  · intro p c hp hc hcne
    apply List.mem_filterMap.mpr
    refine ⟨i, hi, ?_⟩
    simp [hp, hc, hcne]
  · intro p hp hcn c hmem
    rcases tileCostsOf_mem_inv hmem with ⟨j, q, hg, _, hpj, hqc, _⟩
    have hji : j = i := by omega
    subst hji
    rw [hp] at hpj
    injection hpj with hpq
    subst hpq
    rw [hcn] at hqc
    cases hqc
  · intro hnone c hmem
    rcases tileCostsOf_mem_inv hmem with ⟨j, q, hg, _, hpj, _, _⟩
    have hji : j = i := by omega
    subst hji
    rw [hnone] at hpj
    cases hpj

/-- C3 witness: on a concrete 3-tile tileset, gid 3 (tile 2, `cost: 3`) is
accepted and its cost registered; tile 0 (no entry) registers no cost. -/
theorem C3_witness :
    ((2 + 1) ∈ acceptableTilesOf witTileset3 witProps ↔
      witProps 2 = none ∨ ∃ p, witProps 2 = some p ∧ p.collides = false) ∧
    (3, 3) ∈ tileCostsOf witTileset3 witProps ∧
    (1, 5) ∉ tileCostsOf witTileset3 witProps :=
  ⟨(C3_classification witTileset3 witProps 2 (by decide)).1,
   (C3_classification witTileset3 witProps 2 (by decide)).2.1 ⟨false, some 3⟩ 3 rfl rfl
     (by decide),
   (C3_classification witTileset3 witProps 0 (by decide)).2.2.2 rfl 5⟩

/-- C4: when the grid-building loop of `create` completes, the grid has
exactly `map.height` rows of exactly `map.width` entries each, and entry
[y][x] is `getTileID(x, y)`: the tile index from the "World" layer, falling
back to "Below Player" when the "World" layer has no tile there. -/
theorem C4_buildGrid_shape (m : GameMap) (g : List (List Nat))
    (h : buildGrid m = some g) :
    g.length = m.height ∧ (∀ row ∈ g, row.length = m.width) ∧
    ∀ y < m.height, ∀ x < m.width,
      (g.get? y).bind (fun row => row.get? x) = getTileID m (Int.ofNat x) (Int.ofNat y) := by
  unfold buildGrid at h
  rw [seqOption_eq_some] at h
  have hlen : g.length = m.height := by
    have := congrArg List.length h
    simpa using this.symm
  have hrow : ∀ y < m.height, ∃ row, g.get? y = some row ∧
      seqOption ((List.range m.width).map fun x =>
        getTileID m (Int.ofNat x) (Int.ofNat y)) = some row := by
    intro y hy
    have hg := congrArg (fun l => l.get? y) h
    simp only [List.get?_map, List.get?_range hy] at hg
    cases hgy : g.get? y with
    | none => rw [hgy] at hg; simp at hg
    | some row =>
      rw [hgy] at hg
      simp only [Option.map_some', Option.some.injEq] at hg
      exact ⟨row, rfl, hg⟩
  refine ⟨hlen, ?_, ?_⟩
  · intro row hrmem
    rcases List.mem_iff_get?.mp hrmem with ⟨y, hy⟩
    have hylt : y < m.height := by
      have hg : y < g.length := by
        by_contra hge
        rw [List.get?_eq_none.mpr (by omega)] at hy
        cases hy
      omega
    rcases hrow y hylt with ⟨row', hrow', hseq⟩
    rw [hy] at hrow'
    injection hrow' with he
    subst he
    have hl2 := congrArg List.length (seqOption_eq_some.mp hseq)
    simpa using hl2.symm
  · intro y hy x hx
    rcases hrow y hy with ⟨row, hgy, hseq⟩
    rw [hgy, Option.some_bind]
    have h2 := seqOption_eq_some.mp hseq
    have hg2 := congrArg (fun l => l.get? x) h2
    simp only [List.get?_map, List.get?_range hx] at hg2
    cases hrx : row.get? x with
    | none => rw [hrx] at hg2; simp at hg2
    | some v =>
      rw [hrx] at hg2
      simp only [Option.map_some', Option.some.injEq] at hg2
      exact hg2.symm

/-- C4 witness: on the concrete 3×3 map the build succeeds with the expected
shape and the (2,2) entry falls back to the below layer. -/
theorem C4_witness :
    buildGrid witMap = some witGrid ∧ witGrid.length = witMap.height ∧
    (witGrid.get? 2).bind (fun row => row.get? 2) = getTileID witMap 2 2 :=
  ⟨by decide, (C4_buildGrid_shape witMap witGrid (by decide)).1,
   (C4_buildGrid_shape witMap witGrid (by decide)).2.2 2 (by decide) 2 (by decide)⟩

/-- C5 counterexample: cell (5,5) lies outside the 3×3 map, yet
`checkCollision` returns `false` — reported as non-colliding, not the
collision-true safe default the claim states. -/
theorem C5_counterexample :
    ((witMap.width : Int) ≤ 5 ∧ (witMap.height : Int) ≤ 5) ∧
    checkCollision witMap 5 5 = false := by decide

/-- C5 (amended): for every cell outside the grid extents of a well-formed
map, `checkCollision` returns `false`: the out-of-bounds query reports the
cell as non-colliding (traversable), not the collision-true safe default. -/
theorem C5_checkCollision_oob (m : GameMap) (hwf : m.WF) (x y : Int)
    (h : x < 0 ∨ y < 0 ∨ (m.width : Int) ≤ x ∨ (m.height : Int) ≤ y) :
    checkCollision m x y = false := by
  obtain ⟨hl, hw, _, _⟩ := hwf
  unfold checkCollision
  rw [getTileAt_oob hw (by omega)]

/-- C5 witness: a negative coordinate is reported non-colliding. -/
theorem C5_witness : checkCollision witMap (-1) 7 = false :=
  C5_checkCollision_oob witMap (by decide) (-1) 7 (by decide)

/-- C6 counterexample: with the marker at world (-32,-32) — tile cell
(-1,-1), out of bounds — `changeTile` does not silently no-op:
`putTileAtWorldXY` returns `null` and `tile.setCollision(true)` throws a
`TypeError`, modelled as `none` (in particular the state is not returned
unchanged). -/
theorem C6_counterexample :
    changeTile witStateOOB = none ∧ changeTile witStateOOB ≠ some witStateOOB := by decide

/-- C6 (amended): on an out-of-bounds marker cell `changeTile` throws rather
than silently no-opping; on an in-bounds cell it succeeds, is idempotent
(calling it twice leaves the same state as calling it once), and marks
exactly that cell non-walkable for subsequent path requests. -/
theorem C6_changeTile (st : GameState)
    (h : st.map.worldLayer.hasCell (worldToTile st.map.tileWidth st.markerX)
      (worldToTile st.map.tileHeight st.markerY)) :
    ∃ st', changeTile st = some st' ∧
      (changeTile st).bind changeTile = changeTile st ∧
      st'.finder.walkable (worldToTile st.map.tileWidth st.markerX,
        worldToTile st.map.tileHeight st.markerY) = false ∧
      ∀ c : Cell, c ≠ (worldToTile st.map.tileWidth st.markerX,
          worldToTile st.map.tileHeight st.markerY) →
        st'.finder.walkable c = st.finder.walkable c := by
  refine ⟨changeTileResult st, changeTile_eq_of_hasCell st h, ?_, ?_, ?_⟩
  · rw [changeTile_eq_of_hasCell st h, Option.some_bind,
      changeTile_eq_of_hasCell (changeTileResult st) (changeTileResult_hasCell st h),
      changeTileResult_idem st]
  · exact walkable_addAvoidPoint_self _ _ _ rfl
  · intro c hne
    exact walkable_addAvoidPoint_other rfl rfl rfl hne

/-- C6 witness: at the concrete state with the marker on cell (1,1). -/
theorem C6_witness :
    ∃ st', changeTile witState = some st' ∧
      (changeTile witState).bind changeTile = changeTile witState ∧
      st'.finder.walkable (worldToTile witState.map.tileWidth witState.markerX,
        worldToTile witState.map.tileHeight witState.markerY) = false ∧
      ∀ c : Cell, c ≠ (worldToTile witState.map.tileWidth witState.markerX,
          worldToTile witState.map.tileHeight witState.markerY) →
        st'.finder.walkable c = witState.finder.walkable c :=
  C6_changeTile witState (by decide)

/-- C7 counterexample: a request to a non-walkable goal and a request to a
walkable but unreachable goal both surface the very same bare `none` — the
`NotFound` carries no reason, so `InvalidEndpoint` cannot be distinguished
from the unreachable case by the callback. -/
theorem C7_counterexample :
    witFinder.walkable (1, 1) = false ∧
    witFinder.findPath (0, 0) (1, 1) = none ∧
    witFinderBlocked.walkable (1, 1) = true ∧
    witFinderBlocked.findPath (0, 0) (1, 1) = none ∧
    witFinder.findPath (0, 0) (1, 1) = witFinderBlocked.findPath (0, 0) (1, 1) := by
  exact ⟨by decide, by decide, by decide, by decide, by decide⟩

/-- C7 (amended): a path request whose start or goal cell is non-walkable is
surfaced to the caller as `NotFound` — the same bare `null` path value as the
unreachable case, with no `InvalidEndpoint` reason attached — and the
callback, which can only test `path === null`, takes its warn branch. -/
theorem C7_invalid_endpoint (st : GameState) (px py : Int)
    (h : st.finder.walkable (fromCell st) = false ∨
      st.finder.walkable (toCell st px py) = false) :
    st.finder.findPath (fromCell st) (toCell st px py) = none ∧
    handleClickOutcome st px py = ClickOutcome.warned := by
  have hn := findPath_none_of_unwalkable h
  refine ⟨hn, ?_⟩
  unfold handleClickOutcome
  rw [hn]

/-- C7 witness: clicking cell (1,1), whose tile is not acceptable. -/
theorem C7_witness :
    witState.finder.findPath (fromCell witState) (toCell witState 32 32) = none ∧
    handleClickOutcome witState 32 32 = ClickOutcome.warned :=
  C7_invalid_endpoint witState 32 32 (Or.inr (by decide))

/-- C8: when no walkable route connects the requested cells, the failure is
surfaced to the click handler's callback as `NotFound` (a `null` path, not an
exception), and no character movement starts: the outcome is the warn branch
and never `moveCharacter`, so no tweens are created. -/
theorem C8_unreachable (st : GameState) (px py : Int) (hr : st.finder.Rect)
    (h : ¬ ∃ p, st.finder.ValidRoute (fromCell st) (toCell st px py) p) :
    st.finder.findPath (fromCell st) (toCell st px py) = none ∧
    handleClickOutcome st px py = ClickOutcome.warned ∧
    ∀ path tweens, handleClickOutcome st px py ≠ ClickOutcome.moved path tweens := by
  have hn := findPath_none_of_no_route hr h
  have hw : handleClickOutcome st px py = ClickOutcome.warned := by
    unfold handleClickOutcome
    rw [hn]
  refine ⟨hn, hw, ?_⟩
  intro path tweens hcon
  rw [hw] at hcon
  cases hcon

/-- C8 witness: on the disconnected 2×2 grid, clicking the walkable but
unreachable cell (1,1). -/
theorem C8_witness :
    witStateBlocked.finder.findPath (fromCell witStateBlocked)
      (toCell witStateBlocked 32 32) = none ∧
    handleClickOutcome witStateBlocked 32 32 = ClickOutcome.warned ∧
    ∀ path tweens,
      handleClickOutcome witStateBlocked 32 32 ≠ ClickOutcome.moved path tweens :=
  C8_unreachable witStateBlocked 32 32 (by decide) (fun ⟨p, hp⟩ =>
    absurd (reach_subset_reach_bound (by decide) (by decide) (p.length - 1)
      (route_mem_reach (by decide) hp)) (by decide))

/-- C9: `getTileID` returns the "World" tile index when present, else the
"Below Player" one; when neither layer has a tile (including every
out-of-bounds cell of a well-formed map) it dereferences `null` and throws
(`none`), so the grid build in `create` completes iff every in-bounds cell
has a tile on at least one of the two layers. -/
theorem C9_getTileID_totality (m : GameMap) :
    (∀ x y : Int, ∀ t, getTileAt m.worldLayer x y = some t →
      getTileID m x y = some t.index) ∧
    (∀ x y : Int, getTileAt m.worldLayer x y = none →
      getTileID m x y = (getTileAt m.belowLayer x y).map TileData.index) ∧
    (∀ x y : Int, getTileAt m.worldLayer x y = none →
      getTileAt m.belowLayer x y = none → getTileID m x y = none) ∧
    (m.WF → ∀ x y : Int,
      (x < 0 ∨ y < 0 ∨ (m.width : Int) ≤ x ∨ (m.height : Int) ≤ y) →
      getTileID m x y = none) ∧
    ((buildGrid m).isSome = true ↔
      ∀ y < m.height, ∀ x < m.width,
        (getTileID m (Int.ofNat x) (Int.ofNat y)).isSome = true) := by
  refine ⟨?_, ?_, ?_, ?_, ?_⟩
  · intro x y t ht
    unfold getTileID
    rw [ht]
  · intro x y hw
    unfold getTileID
    rw [hw]
    cases hb : getTileAt m.belowLayer x y <;> rfl
  · intro x y hw hb
    unfold getTileID
    rw [hw, hb]
  · intro hwf x y hxy
    obtain ⟨hl1, hw1, hl2, hw2⟩ := hwf
    unfold getTileID
    rw [getTileAt_oob hw1 (by omega), getTileAt_oob hw2 (by omega)]
  · unfold buildGrid
    rw [seqOption_isSome]
    constructor
    · intro hall y hy x hx
      have h1 := hall _ (List.mem_map.mpr ⟨y, List.mem_range.mpr hy, rfl⟩)
      rw [seqOption_isSome] at h1
      exact h1 _ (List.mem_map.mpr ⟨x, List.mem_range.mpr hx, rfl⟩)
    · intro hall o ho
      rcases List.mem_map.mp ho with ⟨y, hy, rfl⟩
      rw [seqOption_isSome]
      intro o' ho'
      rcases List.mem_map.mp ho' with ⟨x, hx, rfl⟩
      exact hall y (List.mem_range.mp hy) x (List.mem_range.mp hx)

/-- C9 witness: on the concrete map, (2,2) falls back to the below layer,
(9,9) throws, and the build completes. -/
theorem C9_witness :
    getTileID witMap 2 2 = (getTileAt witMap.belowLayer 2 2).map TileData.index ∧
    getTileID witMap 9 9 = none ∧
    (buildGrid witMap).isSome = true :=
  ⟨(C9_getTileID_totality witMap).2.1 2 2 (by decide),
   (C9_getTileID_totality witMap).2.2.2.1 (by decide) 9 9 (by decide),
   (C9_getTileID_totality witMap).2.2.2.2.mpr (by decide)⟩

/-- C10: every `handleClick`, after issuing the path search, unconditionally
runs `changeTile`: the resulting state has tile index 2 with collision
enabled at the marker's cell and the cell registered as a point for the
pathfinder to avoid — also when the search surfaced `NotFound`, so a failed
path request still mutates the grid state. -/
theorem C10_handleClick_mutates (st : GameState) (px py : Int)
    (h : st.map.worldLayer.hasCell (worldToTile st.map.tileWidth st.markerX)
      (worldToTile st.map.tileHeight st.markerY)) :
    ∃ st', handleClick st px py = some (handleClickOutcome st px py, st') ∧
      changeTile st = some st' ∧
      getTileAt st'.map.worldLayer (worldToTile st.map.tileWidth st.markerX)
        (worldToTile st.map.tileHeight st.markerY) = some ⟨2, true⟩ ∧
      (worldToTile st.map.tileWidth st.markerX,
        worldToTile st.map.tileHeight st.markerY) ∈ st'.finder.pointsToAvoid ∧
      (st.finder.findPath (fromCell st) (toCell st px py) = none →
        handleClick st px py = some (ClickOutcome.warned, st')) := by
  refine ⟨changeTileResult st, ?_, changeTile_eq_of_hasCell st h, ?_, ?_, ?_⟩
  · unfold handleClick
    rw [changeTile_eq_of_hasCell st h]
    rfl
  · dsimp only [changeTileResult]
    exact getTileAt_putTile h _
  · exact mem_addAvoidPoint_self _ _
  · intro hn
    unfold handleClick
    rw [changeTile_eq_of_hasCell st h, Option.map_some']
    have hwarn : handleClickOutcome st px py = ClickOutcome.warned := by
      unfold handleClickOutcome
      rw [hn]
    rw [hwarn]

/-- C10 witness: a click on the non-walkable cell (1,1) fails to find a path
yet still mutates the world layer and the avoid list. -/
theorem C10_witness :
    ∃ st', handleClick witState 32 32 = some (handleClickOutcome witState 32 32, st') ∧
      changeTile witState = some st' ∧
      getTileAt st'.map.worldLayer (worldToTile witState.map.tileWidth witState.markerX)
        (worldToTile witState.map.tileHeight witState.markerY) = some ⟨2, true⟩ ∧
      (worldToTile witState.map.tileWidth witState.markerX,
        worldToTile witState.map.tileHeight witState.markerY) ∈ st'.finder.pointsToAvoid ∧
      (witState.finder.findPath (fromCell witState) (toCell witState 32 32) = none →
        handleClick witState 32 32 = some (ClickOutcome.warned, st')) :=
  C10_handleClick_mutates witState 32 32 (by decide)
